import Mathlib

/-!
Verification of the asset-lifecycle core of the custom-models repository.

The repository has four serverless handlers:
  * api/upload.js    — multipart upload: parse form, check the filename, unzip,
                       select model/texture entries, put blobs, put metadata,
                       fire-and-forget dispatch of the render trigger;
  * api/thumbnail.js — render trigger: drive a headless browser, store the
                       thumbnail, reload the metadata record and persist a
                       terminal status;
  * the list handler — list metadata records (out of the claims' scope);
  * the delete handler — load the metadata record and batch-delete blob keys.

The embedding below is a shallow model of these handlers as pure functions.
External effects are made explicit:
  * the blob store's url assignment is a parameter putUrl : String → String;
  * the freshly generated uuid is a parameter freshId;
  * Date.now() is a parameter now;
  * each handler returns, besides the HTTP status and body, the ordered trace
    of store operations it performed.
Only POST requests that formidable parsed successfully are modelled (the
method-check and form-parse-failure branches are orthogonal to every claim).
-/

/-!
String primitives.  The JavaScript string operations the handlers use
(endsWith, toLowerCase, split, trim, substring) are modelled by structural
recursion over the character list of a String, so that every definition
evaluates on concrete inputs.  Case folding is ASCII (Char.toLower), which
agrees with toLowerCase on the ASCII names these handlers compare.
-/

/-- Bool test that the first list is an initial segment of the second. -/
def leadMatch : List Char → List Char → Bool
  | [], _ => true
  | _ :: _, [] => false
  | a :: as, b :: bs => a == b && leadMatch as bs

/-- JavaScript s.endsWith(suffix). -/
def strEndsWith (s suffix : String) : Bool :=
  leadMatch suffix.data.reverse s.data.reverse

/-- JavaScript s.toLowerCase() on ASCII strings. -/
def strLower (s : String) : String :=
  ⟨s.data.map Char.toLower⟩

/-- JavaScript s.split(sep) for a one-character separator, on char lists:
always returns at least one (possibly empty) segment. -/
def splitChars (sep : Char) : List Char → List (List Char)
  | [] => [[]]
  | c :: rest =>
    let r := splitChars sep rest
    if c == sep then [] :: r
    else
      match r with
      | h :: t => (c :: h) :: t
      | [] => [[c]]

/-- The whitespace characters JavaScript trim strips in the names these
handlers see. -/
def isSpaceChar (c : Char) : Bool :=
  c == ' ' || c == '\t' || c == '\n' || c == '\r'

/-- JavaScript s.trim(). -/
def jsTrim (s : String) : String :=
  ⟨((s.data.dropWhile isSpaceChar).reverse.dropWhile isSpaceChar).reverse⟩

/-- JavaScript s.substring(1). -/
def strTail (s : String) : String :=
  ⟨s.data.drop 1⟩

/-- One entry of the uploaded zip archive, as JSZip enumerates it:
a relative path, a directory flag, and the entry's bytes. -/
structure ZipEntry where
  name : String
  dir : Bool
  content : List Nat
deriving DecidableEq, Repr

/-- The part of a zip entry that entry selection may depend on:
its name and its directory flag, never its content. -/
def ZipEntry.shape (e : ZipEntry) : String × Bool :=
  (e.name, e.dir)

/-- upload.js line 66: the fixed set of recognized model extensions. -/
def modelExtensions : List String :=
  [".obj", ".gltf", ".glb", ".json"]

/-- The scanning state of the zip.forEach loop in upload.js lines 61-83:
the first model entry found so far, the first texture entry found so far,
and the matched model extension. -/
structure ScanState where
  modelFile : Option ZipEntry
  textureFile : Option ZipEntry
  modelExtension : String
deriving DecidableEq, Repr

/-- One iteration of the zip.forEach callback (upload.js lines 69-83):
lowercase the entry name, record it as the texture if it ends in .png, is not
a directory and no texture was found yet; record it as the model if its name
ends in one of the model extensions, it is not a directory and no model was
found yet. -/
def scanEntry (st : ScanState) (e : ZipEntry) : ScanState :=
  let fileName := strLower e.name
  let st1 :=
    if strEndsWith fileName ".png" && !e.dir && st.textureFile.isNone then
      { st with textureFile := some e }
    else st
  match modelExtensions.find? (fun x => strEndsWith fileName x) with
  | some ext =>
      if !e.dir && st1.modelFile.isNone then
        { st1 with modelFile := some e, modelExtension := ext }
      else st1
  | none => st1

/-- The whole zip.forEach loop: fold scanEntry over the entries in
enumeration order, starting from the empty state. -/
def scanEntries (entries : List ZipEntry) : ScanState :=
  entries.foldl scanEntry { modelFile := none, textureFile := none, modelExtension := "" }

/-- The metadata record of upload.js lines 108-116.  thumbnailUrl is an
Option because the record created at upload time has no such field; the
render trigger adds it. -/
structure MetadataRecord where
  id : String
  name : String
  modelUrl : String
  textureUrl : String
  modelType : String
  status : String
  thumbnailUrl : Option String
  timestamp : Nat
deriving DecidableEq, Repr

/-- A store operation performed by the upload handler, in trace order:
a blob put, a metadata put, or the fire-and-forget dispatch of the render
trigger (whose recorded Boolean is the dispatch outcome; the handler never
inspects it). -/
inductive StoreOp where
  | putBlob (key : String) (content : List Nat)
  | putMeta (key : String) (record : MetadataRecord)
  | render (modelId : String) (ok : Bool)
deriving DecidableEq, Repr

/-- The body of the upload handler's JSON response. -/
inductive UploadBody where
  | err (message : String)
  | ok (id name message : String)
deriving DecidableEq, Repr

/-- The uploaded file as formidable reports it: its original client-side
filename, and the result of JSZip.loadAsync on its bytes — none when the
payload is not a well-formed archive (loadAsync rejects). -/
structure UploadedFile where
  originalFilename : String
  archive : Option (List ZipEntry)
deriving DecidableEq, Repr

/-- The parsed multipart form of a POST upload request:
fields.modelName (before trimming) and files.file. -/
structure UploadRequest where
  modelName : Option String
  file : Option UploadedFile
deriving DecidableEq, Repr

/-- The upload handler's outcome: HTTP status, JSON body, and the ordered
trace of store operations performed before responding. -/
structure UploadResult where
  status : Nat
  body : UploadBody
  ops : List StoreOp
deriving DecidableEq, Repr

/-- upload.js line 52: originalFilename.split(".").pop().toLowerCase —
the last dot-separated segment of the filename, lowercased. -/
def lastDotSegmentLower (s : String) : String :=
  strLower ⟨(splitChars '.' s.data).getLastD []⟩

/-- The upload handler (upload.js lines 40-143), modelled on the store's
success path.  putUrl is the blob store's url assignment, freshId the value
of crypto.randomUUID, now the value of Date.now, dispatchOk the outcome of
the un-awaited render-trigger fetch. -/
def uploadHandler (putUrl : String → String) (freshId : String) (now : Nat)
    (req : UploadRequest) (dispatchOk : Bool) : UploadResult :=
  let modelName := (req.modelName.map jsTrim).getD ""
  match req.file with
  | none => ⟨400, .err "Modellname oder ZIP-Datei fehlen.", []⟩
  | some zipFile =>
    if modelName.data.isEmpty then
      ⟨400, .err "Modellname oder ZIP-Datei fehlen.", []⟩
    else if lastDotSegmentLower zipFile.originalFilename ≠ "zip" then
      ⟨400, .err "Nur ZIP-Dateien sind erlaubt.", []⟩
    else
      match zipFile.archive with
      | none => ⟨500, .err "Interner Serverfehler.", []⟩
      | some entries =>
        let st := scanEntries entries
        match st.modelFile with
        | none => ⟨400, .err "Keine unterstützte Modelldatei (.obj, .gltf, .glb, .json) in der ZIP gefunden.", []⟩
        | some modelFile =>
          match st.textureFile with
          | none => ⟨400, .err "Keine Texturdatei (.png) in der ZIP gefunden.", []⟩
          | some textureFile =>
            let modelId := freshId
            let modelKey := "models/" ++ modelId ++ "/model" ++ st.modelExtension
            let textureKey := "models/" ++ modelId ++ "/texture.png"
            let metadataKey := "models/" ++ modelId ++ "/metadata.json"
            let meta : MetadataRecord :=
              { id := modelId
                name := modelName
                modelUrl := putUrl modelKey
                textureUrl := putUrl textureKey
                modelType := strTail st.modelExtension
                status := "Uploaded"
                thumbnailUrl := none
                timestamp := now }
            { status := 200
              body := .ok modelId modelName "Upload erfolgreich, Rendering läuft im Hintergrund."
              ops := [.putBlob modelKey modelFile.content,
                      .putBlob textureKey textureFile.content,
                      .putMeta metadataKey meta,
                      .render modelId dispatchOk] }

/-!
The render trigger (api/thumbnail.js).  Its external effects are captured by
an environment record: whether the browser session (launch, goto,
waitForFunction, screenshot) succeeds; whether the thumbnail put succeeds;
the metadata fetch result (none models a non-ok response, which throws
before the metadata variable is assigned); whether the Ready-persist and the
degrade-path Error-persist succeed; and the url the store assigns to the
thumbnail blob.
-/

/-- The external-effect outcomes a single run of the render trigger can
observe, one field per fallible step of thumbnail.js. -/
structure RenderEnv where
  renderOk : Bool
  putThumbOk : Bool
  metaFetch : Option MetadataRecord
  putMetaOk : Bool
  putErrMetaOk : Bool
  thumbUrl : String
deriving DecidableEq, Repr

/-- The render trigger's outcome: HTTP status, whether the thumbnail blob
was stored, and the metadata records successfully persisted, in order. -/
structure ThumbResult where
  status : Nat
  thumbStored : Bool
  metaWrites : List MetadataRecord
deriving DecidableEq, Repr

/-- The render trigger handler (thumbnail.js lines 18-134).  Follows the
code's control flow: 400 when modelId is missing; any failure before the
metadata fetch reaches the catch with metadata still undefined, so nothing
is persisted; once the record is loaded the code mutates it in place to
status Ready with the thumbnail url, and on a failed Ready-persist the catch
re-mutates the same in-memory record to status Error (keeping the already
assigned thumbnailUrl) and best-effort persists it. -/
def thumbnailHandler (env : RenderEnv) (modelId : Option String) : ThumbResult :=
  match modelId with
  | none => ⟨400, false, []⟩
  | some _ =>
    if !env.renderOk then ⟨500, false, []⟩
    else if !env.putThumbOk then ⟨500, false, []⟩
    else
      match env.metaFetch with
      | none => ⟨500, true, []⟩
      | some m =>
        let ready := { m with status := "Ready", thumbnailUrl := some env.thumbUrl }
        if env.putMetaOk then ⟨200, true, [ready]⟩
        else
          let degraded := { ready with status := "Error" }
          if env.putErrMetaOk then ⟨500, true, [degraded]⟩
          else ⟨500, true, []⟩

/-!
The delete handler (src/unnamed/part_001).  It loads the metadata record by
fetching models/ID/metadata.json; a non-ok response yields 404.  The batch
actually submitted to del (lines 83-88) is
  [modelMetadata.modelUrl, modelMetadata.textureUrl,
   modelMetadata.thumbnailUrl, metadataPath].filter(url => url),
i.e. the three url fields of the fetched JSON with every falsy value
dropped, plus the fixed metadata path.  The urlsToDelete array of lines
58-76 is computed but never passed to del, so it is not part of the model.
The fetched JSON's fields are Options here because the delete handler reads
whatever JSON is stored; a missing field is undefined and filtered out.
-/

/-- The metadata JSON as the delete handler reads it: every field it
dereferences, each possibly absent. -/
structure MetaJson where
  modelUrl : Option String
  textureUrl : Option String
  thumbnailUrl : Option String
  modelType : Option String
deriving DecidableEq, Repr

/-- JavaScript truthiness of a possibly-absent string: undefined, null and
the empty string are falsy. -/
def jsTruthy (o : Option String) : Bool :=
  match o with
  | none => false
  | some s => !s.data.isEmpty

/-- The delete handler's outcome: HTTP status and the key batches submitted
to the store's del. -/
structure DeleteResult where
  status : Nat
  delBatches : List (List String)
deriving DecidableEq, Repr

/-- The fixed metadata key of an asset, models/ID/metadata.json. -/
def metadataKeyOf (modelId : String) : String :=
  "models/" ++ modelId ++ "/metadata.json"

/-- The batch the delete handler submits to del (part_001 lines 83-88):
modelUrl, textureUrl, thumbnailUrl and the metadata path, with falsy
entries filtered out. -/
def deleteBatch (modelId : String) (m : MetaJson) : List String :=
  (([m.modelUrl, m.textureUrl, m.thumbnailUrl, some (metadataKeyOf modelId)].filter
    jsTruthy).filterMap id)

/-- The delete handler (part_001 lines 8-100): 400 without an id, 404 when
the metadata fetch is not ok, otherwise one del call with the batch of
lines 83-88 and a 200 response. -/
def deleteHandler (modelId : Option String) (metaFetch : Option MetaJson) : DeleteResult :=
  match modelId with
  | none => ⟨400, []⟩
  | some mid =>
    match metaFetch with
    | none => ⟨404, []⟩
    | some m => ⟨200, [deleteBatch mid m]⟩

/-!
Specification-side entry predicates, written from the spec's words: the
model entry is a non-directory entry whose name ends in a recognized model
extension; the texture entry is a non-directory entry whose name ends in
the recognized image extension.  The theorems below relate the forEach scan
of the code to first-match search with these predicates.
-/

/-- Spec reading of a recognized model entry. -/
def isModelEntry (e : ZipEntry) : Bool :=
  !e.dir && modelExtensions.any (fun x => strEndsWith (strLower e.name) x)

/-- Spec reading of a recognized texture entry. -/
def isTextureEntry (e : ZipEntry) : Bool :=
  !e.dir && strEndsWith (strLower e.name) ".png"

/-- The model extension the scan records for a matching entry: the first
extension of the fixed set that the lowercased name ends with. -/
def matchedExtension (e : ZipEntry) : String :=
  (modelExtensions.find? (fun x => strEndsWith (strLower e.name) x)).getD ""

theorem find_isSome_eq_any {α : Type} (q : α → Bool) (l : List α) :
    (l.find? q).isSome = l.any q := by
  induction l with
  | nil => rfl
  | cons a t ih =>
      rw [List.find?_cons, List.any_cons]
      cases h : q a
      · simpa using ih
      · simp

theorem scanEntry_modelFile (st : ScanState) (e : ZipEntry) :
    (scanEntry st e).modelFile =
      if isModelEntry e && st.modelFile.isNone then some e else st.modelFile := by
  unfold scanEntry isModelEntry
  rw [← find_isSome_eq_any]
  by_cases hpng : strEndsWith (strLower e.name) ".png" = true <;>
  by_cases hd : e.dir = true <;>
  by_cases hmf : st.modelFile.isNone = true <;>
  by_cases htf : st.textureFile.isNone = true <;>
  cases h : modelExtensions.find? (fun x => strEndsWith (strLower e.name) x) <;>
  simp only [h] <;> simp_all

theorem scanEntry_textureFile (st : ScanState) (e : ZipEntry) :
    (scanEntry st e).textureFile =
      if isTextureEntry e && st.textureFile.isNone then some e else st.textureFile := by
  unfold scanEntry isTextureEntry
  by_cases hpng : strEndsWith (strLower e.name) ".png" = true <;>
  by_cases hd : e.dir = true <;>
  by_cases hmf : st.modelFile.isNone = true <;>
  by_cases htf : st.textureFile.isNone = true <;>
  cases h : modelExtensions.find? (fun x => strEndsWith (strLower e.name) x) <;>
  simp only [h] <;> simp_all

theorem scanEntry_modelExtension (st : ScanState) (e : ZipEntry) :
    (scanEntry st e).modelExtension =
      if isModelEntry e && st.modelFile.isNone then matchedExtension e
      else st.modelExtension := by
  unfold scanEntry isModelEntry matchedExtension
  rw [← find_isSome_eq_any]
  by_cases hpng : strEndsWith (strLower e.name) ".png" = true <;>
  by_cases hd : e.dir = true <;>
  by_cases hmf : st.modelFile.isNone = true <;>
  by_cases htf : st.textureFile.isNone = true <;>
  cases h : modelExtensions.find? (fun x => strEndsWith (strLower e.name) x) <;>
  simp only [h] <;> simp_all

theorem foldl_scan_keeps_model (l : List ZipEntry) (st : ScanState) (m : ZipEntry)
    (h : st.modelFile = some m) :
    (l.foldl scanEntry st).modelFile = some m ∧
    (l.foldl scanEntry st).modelExtension = st.modelExtension := by
  induction l generalizing st with
  | nil => exact ⟨h, rfl⟩
  | cons a t ih =>
      have h1 : (scanEntry st a).modelFile = some m := by
        rw [scanEntry_modelFile, h]
        simp
      have h2 : (scanEntry st a).modelExtension = st.modelExtension := by
        rw [scanEntry_modelExtension, h]
        simp
      have := ih (scanEntry st a) h1
      simpa [List.foldl_cons, h2] using this

theorem foldl_scan_model (l : List ZipEntry) (st : ScanState)
    (h : st.modelFile = none) :
    (l.foldl scanEntry st).modelFile = l.find? isModelEntry ∧
    (l.foldl scanEntry st).modelExtension =
      (match l.find? isModelEntry with
       | some e => matchedExtension e
       | none => st.modelExtension) := by
  induction l generalizing st with
  | nil => exact ⟨h, rfl⟩
  | cons a t ih =>
      by_cases hp : isModelEntry a = true
      · have h1 : (scanEntry st a).modelFile = some a := by
          rw [scanEntry_modelFile, h, hp]
          simp
        have h2 : (scanEntry st a).modelExtension = matchedExtension a := by
          rw [scanEntry_modelExtension, h, hp]
          simp
        have hk := foldl_scan_keeps_model t (scanEntry st a) a h1
        refine ⟨?_, ?_⟩
        · rw [List.foldl_cons, hk.1, List.find?_cons, hp]
        · rw [List.foldl_cons, hk.2, h2, List.find?_cons, hp]
      · have hp' : isModelEntry a = false := by simpa using hp
        have h1 : (scanEntry st a).modelFile = none := by
          rw [scanEntry_modelFile, hp']
          simpa using h
        have h2 : (scanEntry st a).modelExtension = st.modelExtension := by
          rw [scanEntry_modelExtension, hp']
          simp
        have := ih (scanEntry st a) h1
        rw [List.foldl_cons] at *
        rw [List.find?_cons, hp']
        exact ⟨this.1, by rw [this.2, h2]⟩

theorem foldl_scan_keeps_texture (l : List ZipEntry) (st : ScanState) (m : ZipEntry)
    (h : st.textureFile = some m) :
    (l.foldl scanEntry st).textureFile = some m := by
  induction l generalizing st with
  | nil => exact h
  | cons a t ih =>
      have h1 : (scanEntry st a).textureFile = some m := by
        rw [scanEntry_textureFile, h]
        simp
      simpa [List.foldl_cons] using ih (scanEntry st a) h1

theorem foldl_scan_texture (l : List ZipEntry) (st : ScanState)
    (h : st.textureFile = none) :
    (l.foldl scanEntry st).textureFile = l.find? isTextureEntry := by
  induction l generalizing st with
  | nil => exact h
  | cons a t ih =>
      by_cases hp : isTextureEntry a = true
      · have h1 : (scanEntry st a).textureFile = some a := by
          rw [scanEntry_textureFile, h, hp]
          simp
        rw [List.foldl_cons, foldl_scan_keeps_texture t _ a h1, List.find?_cons, hp]
      · have hp' : isTextureEntry a = false := by simpa using hp
        have h1 : (scanEntry st a).textureFile = none := by
          rw [scanEntry_textureFile, hp']
          simpa using h
        rw [List.foldl_cons, ih (scanEntry st a) h1, List.find?_cons, hp']

theorem scanEntries_modelFile (entries : List ZipEntry) :
    (scanEntries entries).modelFile = entries.find? isModelEntry :=
  (foldl_scan_model entries _ rfl).1

theorem scanEntries_textureFile (entries : List ZipEntry) :
    (scanEntries entries).textureFile = entries.find? isTextureEntry :=
  foldl_scan_texture entries _ rfl

theorem scanEntries_modelExtension (entries : List ZipEntry) :
    (scanEntries entries).modelExtension =
      (match entries.find? isModelEntry with
       | some e => matchedExtension e
       | none => "") :=
  (foldl_scan_model entries _ rfl).2

/-- The model-entry test factored through the entry's shape: it reads only
the name and the directory flag. -/
def isModelShape (s : String × Bool) : Bool :=
  !s.2 && modelExtensions.any (fun x => strEndsWith (strLower s.1) x)

/-- The texture-entry test factored through the entry's shape. -/
def isTextureShape (s : String × Bool) : Bool :=
  !s.2 && strEndsWith (strLower s.1) ".png"

theorem find_respects_map {α β : Type} (f : α → β) (q : β → Bool) :
    ∀ (l l' : List α), l.map f = l'.map f →
      (l.find? (fun a => q (f a))).map f = (l'.find? (fun a => q (f a))).map f := by
  intro l
  induction l with
  | nil =>
      intro l' h
      cases l' with
      | nil => rfl
      | cons b t => simp at h
  | cons a t ih =>
      intro l' h
      cases l' with
      | nil => simp at h
      | cons b t' =>
          simp only [List.map_cons, List.cons.injEq] at h
          obtain ⟨hab, ht⟩ := h
          rw [List.find?_cons, List.find?_cons, hab]
          cases hq : q (f b)
          · simpa [hq] using ih t' ht
          · simpa [hq] using hab

theorem uploadHandler_response_ignores_dispatch (putUrl : String → String)
    (freshId : String) (now : Nat) (req : UploadRequest) (d₁ d₂ : Bool) :
    (uploadHandler putUrl freshId now req d₁).status
        = (uploadHandler putUrl freshId now req d₂).status ∧
    (uploadHandler putUrl freshId now req d₁).body
        = (uploadHandler putUrl freshId now req d₂).body := by
  rcases req with ⟨mn, file⟩
  cases file with
  | none => exact ⟨rfl, rfl⟩
  | some f =>
      rcases f with ⟨fname, arch⟩
      cases arch with
      | none =>
          by_cases hn : ((mn.map jsTrim).getD "").data.isEmpty <;>
          by_cases hz : lastDotSegmentLower fname = "zip" <;>
          simp [uploadHandler, hn, hz]
      | some entries =>
          by_cases hn : ((mn.map jsTrim).getD "").data.isEmpty <;>
          by_cases hz : lastDotSegmentLower fname = "zip" <;>
          cases h1 : (scanEntries entries).modelFile <;>
          cases h2 : (scanEntries entries).textureFile <;>
          simp [uploadHandler, hn, hz, h1, h2]

theorem uploadHandler_ops_cases (putUrl : String → String) (freshId : String)
    (now : Nat) (req : UploadRequest) (d : Bool) :
    (uploadHandler putUrl freshId now req d).ops = [] ∨
    ∃ mkey mc tkey tc meta,
      (uploadHandler putUrl freshId now req d).ops =
        [StoreOp.putBlob mkey mc, StoreOp.putBlob tkey tc,
         StoreOp.putMeta ("models/" ++ freshId ++ "/metadata.json") meta,
         StoreOp.render freshId d] ∧
      meta.status = "Uploaded" ∧ meta.thumbnailUrl = none ∧ meta.id = freshId ∧
      meta.modelUrl = putUrl mkey ∧ meta.textureUrl = putUrl tkey := by
  rcases req with ⟨mn, file⟩
  cases file with
  | none => exact Or.inl rfl
  | some f =>
      rcases f with ⟨fname, arch⟩
      cases arch with
      | none =>
          by_cases hn : ((mn.map jsTrim).getD "").data.isEmpty <;>
          by_cases hz : lastDotSegmentLower fname = "zip" <;>
          simp [uploadHandler, hn, hz]
      | some entries =>
          by_cases hn : ((mn.map jsTrim).getD "").data.isEmpty <;>
          by_cases hz : lastDotSegmentLower fname = "zip" <;>
          cases h1 : (scanEntries entries).modelFile <;>
          cases h2 : (scanEntries entries).textureFile <;>
          simp [uploadHandler, hn, hz, h1, h2] <;>
          exact ⟨_, _, _, _, _, ⟨⟨rfl, rfl⟩, ⟨rfl, rfl⟩, rfl⟩, rfl, rfl, rfl, rfl, rfl⟩

theorem isModelEntry_eq_shape : isModelEntry = fun e => isModelShape (ZipEntry.shape e) := rfl

theorem isTextureEntry_eq_shape : isTextureEntry = fun e => isTextureShape (ZipEntry.shape e) := rfl

theorem metadataKey_inj (a b : String)
    (h : "models/" ++ a ++ "/metadata.json" = "models/" ++ b ++ "/metadata.json") :
    a = b := by
  have hd : ("models/" ++ a ++ "/metadata.json").data
      = ("models/" ++ b ++ "/metadata.json").data := by rw [h]
  simp only [String.data_append, List.append_assoc] at hd
  exact String.ext (List.append_cancel_right (List.append_cancel_left hd))

theorem metadataKey_data_ne_nil (a : String) : (metadataKeyOf a).data ≠ [] := by
  simp [metadataKeyOf, String.data_append]

theorem uploadHandler_missing_entry (putUrl : String → String) (freshId : String)
    (now : Nat) (mn : Option String) (fname : String) (entries : List ZipEntry) (d : Bool)
    (hm : entries.find? isModelEntry = none ∨ entries.find? isTextureEntry = none) :
    (uploadHandler putUrl freshId now ⟨mn, some ⟨fname, some entries⟩⟩ d).status = 400 ∧
    (uploadHandler putUrl freshId now ⟨mn, some ⟨fname, some entries⟩⟩ d).ops = [] := by
  cases mn with
  | none => simp [uploadHandler]
  | some n =>
      by_cases hn : (jsTrim n).data.isEmpty
      · simp [uploadHandler, hn]
      · by_cases hz : lastDotSegmentLower fname = "zip"
        · rcases hm with hm | hm
          · simp [uploadHandler, hn, hz, scanEntries_modelFile, hm]
          · cases h2 : entries.find? isModelEntry with
            | none => simp [uploadHandler, hn, hz, scanEntries_modelFile, h2]
            | some me =>
                simp [uploadHandler, hn, hz, scanEntries_modelFile,
                      scanEntries_textureFile, h2, hm]
        · simp [uploadHandler, hn, hz]

theorem uploadHandler_success_run (putUrl : String → String) (freshId : String)
    (now : Nat) (name fname : String) (entries : List ZipEntry) (d : Bool)
    (me te : ZipEntry)
    (hn : (jsTrim name).data.isEmpty = false)
    (hz : lastDotSegmentLower fname = "zip")
    (hme : entries.find? isModelEntry = some me)
    (hte : entries.find? isTextureEntry = some te) :
    uploadHandler putUrl freshId now ⟨some name, some ⟨fname, some entries⟩⟩ d =
      { status := 200
        body := UploadBody.ok freshId (jsTrim name)
          "Upload erfolgreich, Rendering läuft im Hintergrund."
        ops := [StoreOp.putBlob
                  ("models/" ++ freshId ++ "/model" ++ (scanEntries entries).modelExtension)
                  me.content,
                StoreOp.putBlob ("models/" ++ freshId ++ "/texture.png") te.content,
                StoreOp.putMeta ("models/" ++ freshId ++ "/metadata.json")
                  { id := freshId
                    name := jsTrim name
                    modelUrl := putUrl
                      ("models/" ++ freshId ++ "/model" ++ (scanEntries entries).modelExtension)
                    textureUrl := putUrl ("models/" ++ freshId ++ "/texture.png")
                    modelType := strTail (scanEntries entries).modelExtension
                    status := "Uploaded"
                    thumbnailUrl := none
                    timestamp := now },
                StoreOp.render freshId d] } := by
  simp [uploadHandler, hn, hz, scanEntries_modelFile, scanEntries_textureFile, hme, hte]

/-- Claim C5: for every well-formed archive the Ingest Extractor selects as
the model the first non-directory entry, in enumeration order, whose name
ends in a recognized model extension, and as the texture the first
non-directory entry whose name ends in the recognized image extension; the
selection depends only on enumeration order and entry names plus directory
flags (the shape), never on entry content; and when no model entry or no
texture entry exists the handler fails with the ValidationError response
(status 400). -/
theorem C5_first_match_selection (entries entries' : List ZipEntry) :
    (scanEntries entries).modelFile = entries.find? isModelEntry ∧
    (scanEntries entries).textureFile = entries.find? isTextureEntry ∧
    (entries.map ZipEntry.shape = entries'.map ZipEntry.shape →
      ((scanEntries entries).modelFile).map ZipEntry.shape
        = ((scanEntries entries').modelFile).map ZipEntry.shape ∧
      ((scanEntries entries).textureFile).map ZipEntry.shape
        = ((scanEntries entries').textureFile).map ZipEntry.shape ∧
      (scanEntries entries).modelExtension = (scanEntries entries').modelExtension) ∧
    (∀ (putUrl : String → String) (freshId name fname : String) (now : Nat) (d : Bool),
      entries.find? isModelEntry = none ∨ entries.find? isTextureEntry = none →
      (uploadHandler putUrl freshId now ⟨some name, some ⟨fname, some entries⟩⟩ d).status
        = 400) := by
  refine ⟨scanEntries_modelFile entries, scanEntries_textureFile entries, ?_, ?_⟩
  · intro hmap
    have hm := find_respects_map ZipEntry.shape isModelShape entries entries' hmap
    have ht := find_respects_map ZipEntry.shape isTextureShape entries entries' hmap
    rw [← isModelEntry_eq_shape] at hm
    rw [← isTextureEntry_eq_shape] at ht
    refine ⟨?_, ?_, ?_⟩
    · rw [scanEntries_modelFile, scanEntries_modelFile]
      exact hm
    · rw [scanEntries_textureFile, scanEntries_textureFile]
      exact ht
    · rw [scanEntries_modelExtension, scanEntries_modelExtension]
      cases h1 : entries.find? isModelEntry with
      | none =>
          cases h2 : entries'.find? isModelEntry with
          | none => rfl
          | some e => rw [h1, h2] at hm; simp at hm
      | some e =>
          cases h2 : entries'.find? isModelEntry with
          | none => rw [h1, h2] at hm; simp at hm
          | some e' =>
              rw [h1, h2] at hm
              have hs : e.shape = e'.shape := by simpa using hm
              have hname : e.name = e'.name := congrArg Prod.fst hs
              simp [matchedExtension, hname]
  · intro putUrl freshId name fname now d hmiss
    exact (uploadHandler_missing_entry putUrl freshId now (some name) fname entries d hmiss).1

/-- Witness for C5 at concrete inputs: in an archive listing a text file,
MESH.OBJ and other.obj, the scan selects MESH.OBJ (the first model match in
enumeration order); and uploading an archive holding only a texture yields
status 400. -/
theorem C5_witness :
    (scanEntries [⟨"readme.txt", false, [0]⟩, ⟨"MESH.OBJ", false, [1]⟩,
                  ⟨"other.obj", false, [2]⟩]).modelFile = some ⟨"MESH.OBJ", false, [1]⟩ ∧
    (uploadHandler (fun k => k) "id-5" 7
      ⟨some "Chair", some ⟨"a.zip", some [⟨"skin.png", false, [3]⟩]⟩⟩ true).status = 400 := by
  constructor
  · rw [(C5_first_match_selection
      [⟨"readme.txt", false, [0]⟩, ⟨"MESH.OBJ", false, [1]⟩, ⟨"other.obj", false, [2]⟩] []).1]
    decide
  · exact (C5_first_match_selection [⟨"skin.png", false, [3]⟩] []).2.2.2
      (fun k => k) "id-5" "Chair" "a.zip" 7 true (Or.inl (by decide))

/-- Claim C6: uploading a well-formed archive that lacks a recognized model
entry or lacks a texture entry yields a 400 response and performs no blob
writes: the operation trace is empty when the error is returned. -/
theorem C6_missing_entry_no_writes (putUrl : String → String) (freshId : String)
    (now : Nat) (mn : Option String) (fname : String) (entries : List ZipEntry) (d : Bool)
    (hm : entries.find? isModelEntry = none ∨ entries.find? isTextureEntry = none) :
    (uploadHandler putUrl freshId now ⟨mn, some ⟨fname, some entries⟩⟩ d).status = 400 ∧
    (uploadHandler putUrl freshId now ⟨mn, some ⟨fname, some entries⟩⟩ d).ops = [] :=
  uploadHandler_missing_entry putUrl freshId now mn fname entries d hm

/-- Witness for C6: an archive with a texture but no model entry is refused
with 400 and an empty operation trace. -/
theorem C6_witness :
    (uploadHandler (fun k => k) "id-6" 9
      ⟨some "Chair", some ⟨"b.zip", some [⟨"skin.png", false, [2]⟩]⟩⟩ false).status = 400 ∧
    (uploadHandler (fun k => k) "id-6" 9
      ⟨some "Chair", some ⟨"b.zip", some [⟨"skin.png", false, [2]⟩]⟩⟩ false).ops = [] :=
  C6_missing_entry_no_writes (fun k => k) "id-6" 9 (some "Chair") "b.zip"
    [⟨"skin.png", false, [2]⟩] false (Or.inl (by decide))

/-- Claim C10: the fixed extension sets are exactly .obj, .gltf, .glb, .json
for the model and .png for the texture, and matching lowercases the entry
name before the ends-with test, so MODEL.OBJ and Skin.PNG are recognized. -/
theorem C10_extension_sets :
    modelExtensions = [".obj", ".gltf", ".glb", ".json"] ∧
    (∀ entries : List ZipEntry,
      (scanEntries entries).modelFile =
        entries.find? (fun e => !e.dir &&
          modelExtensions.any (fun x => strEndsWith (strLower e.name) x))) ∧
    (∀ entries : List ZipEntry,
      (scanEntries entries).textureFile =
        entries.find? (fun e => !e.dir && strEndsWith (strLower e.name) ".png")) ∧
    isModelEntry ⟨"MODEL.OBJ", false, [1]⟩ = true ∧
    isTextureEntry ⟨"Skin.PNG", false, [2]⟩ = true ∧
    (scanEntries [⟨"MODEL.OBJ", false, [1]⟩, ⟨"Skin.PNG", false, [2]⟩]).modelFile
      = some ⟨"MODEL.OBJ", false, [1]⟩ ∧
    (scanEntries [⟨"MODEL.OBJ", false, [1]⟩, ⟨"Skin.PNG", false, [2]⟩]).textureFile
      = some ⟨"Skin.PNG", false, [2]⟩ ∧
    (scanEntries [⟨"MODEL.OBJ", false, [1]⟩, ⟨"Skin.PNG", false, [2]⟩]).modelExtension
      = ".obj" := by
  refine ⟨rfl, scanEntries_modelFile, scanEntries_textureFile, ?_, ?_, ?_, ?_, ?_⟩ <;> decide

/-- Claim C7: uploading an archive holding at least one recognized model
entry and one texture entry, with a non-empty (trimmed) name and a filename
that passes the zip gate, stores the two blobs, stores a metadata record at
models/ID/metadata.json with status Uploaded, the store-assigned blob urls
in modelUrl/textureUrl, and the freshly generated id, and answers 200 with
id, name and message.  The final conjunct shows metadata keys collide only
on equal ids, so distinct fresh ids give distinct records (uniqueness per
upload follows from uniqueness of the generated uuid). -/
theorem C7_success_path (putUrl : String → String) (freshId : String)
    (now : Nat) (name fname : String) (entries : List ZipEntry) (d : Bool)
    (me te : ZipEntry)
    (hn : (jsTrim name).data.isEmpty = false)
    (hz : lastDotSegmentLower fname = "zip")
    (hme : entries.find? isModelEntry = some me)
    (hte : entries.find? isTextureEntry = some te) :
    ∃ meta : MetadataRecord,
      (uploadHandler putUrl freshId now ⟨some name, some ⟨fname, some entries⟩⟩ d).status
        = 200 ∧
      (uploadHandler putUrl freshId now ⟨some name, some ⟨fname, some entries⟩⟩ d).body
        = UploadBody.ok freshId (jsTrim name)
            "Upload erfolgreich, Rendering läuft im Hintergrund." ∧
      (uploadHandler putUrl freshId now ⟨some name, some ⟨fname, some entries⟩⟩ d).ops
        = [StoreOp.putBlob
             ("models/" ++ freshId ++ "/model" ++ (scanEntries entries).modelExtension)
             me.content,
           StoreOp.putBlob ("models/" ++ freshId ++ "/texture.png") te.content,
           StoreOp.putMeta ("models/" ++ freshId ++ "/metadata.json") meta,
           StoreOp.render freshId d] ∧
      meta.id = freshId ∧
      meta.status = "Uploaded" ∧
      meta.name = jsTrim name ∧
      meta.modelUrl
        = putUrl ("models/" ++ freshId ++ "/model" ++ (scanEntries entries).modelExtension) ∧
      meta.textureUrl = putUrl ("models/" ++ freshId ++ "/texture.png") ∧
      meta.thumbnailUrl = none ∧
      meta.timestamp = now ∧
      (∀ fid' : String,
        "models/" ++ fid' ++ "/metadata.json" = "models/" ++ freshId ++ "/metadata.json" →
        fid' = freshId) := by
  rw [uploadHandler_success_run putUrl freshId now name fname entries d me te hn hz hme hte]
  exact ⟨_, rfl, rfl, rfl, rfl, rfl, rfl, rfl, rfl, rfl, rfl,
    fun fid' h => metadataKey_inj fid' freshId h⟩

/-- Witness for C7: a concrete upload of an archive holding mesh.obj and
skin.png, name Chair, succeeds with status 200. -/
theorem C7_witness :
    (uploadHandler (fun k => "u-" ++ k) "id-7" 3
      ⟨some "Chair", some ⟨"bundle.zip",
        some [⟨"mesh.obj", false, [1]⟩, ⟨"skin.png", false, [2]⟩]⟩⟩ true).status = 200 := by
  obtain ⟨meta, h200, -⟩ := C7_success_path (fun k => "u-" ++ k) "id-7" 3 "Chair" "bundle.zip"
    [⟨"mesh.obj", false, [1]⟩, ⟨"skin.png", false, [2]⟩] true
    ⟨"mesh.obj", false, [1]⟩ ⟨"skin.png", false, [2]⟩
    (by decide) (by decide) (by decide) (by decide)
  exact h200

/-- Claim C8: the render handoff is fire-and-forget: on the success path the
upload response is 200 and neither the status nor the body of the response
depends on the dispatch outcome; the dispatch itself is performed (it
appears in the trace) with whichever outcome the un-awaited fetch has. -/
theorem C8_fire_and_forget (putUrl : String → String) (freshId : String)
    (now : Nat) (name fname : String) (entries : List ZipEntry)
    (me te : ZipEntry)
    (hn : (jsTrim name).data.isEmpty = false)
    (hz : lastDotSegmentLower fname = "zip")
    (hme : entries.find? isModelEntry = some me)
    (hte : entries.find? isTextureEntry = some te) :
    (uploadHandler putUrl freshId now ⟨some name, some ⟨fname, some entries⟩⟩ true).status
      = 200 ∧
    (∀ d₁ d₂ : Bool,
      (uploadHandler putUrl freshId now ⟨some name, some ⟨fname, some entries⟩⟩ d₁).status
        = (uploadHandler putUrl freshId now ⟨some name, some ⟨fname, some entries⟩⟩ d₂).status ∧
      (uploadHandler putUrl freshId now ⟨some name, some ⟨fname, some entries⟩⟩ d₁).body
        = (uploadHandler putUrl freshId now ⟨some name, some ⟨fname, some entries⟩⟩ d₂).body) ∧
    (∀ d : Bool,
      StoreOp.render freshId d
        ∈ (uploadHandler putUrl freshId now ⟨some name, some ⟨fname, some entries⟩⟩ d).ops) := by
  refine ⟨?_, ?_, ?_⟩
  · rw [uploadHandler_success_run putUrl freshId now name fname entries true me te hn hz hme hte]
  · intro d₁ d₂
    exact uploadHandler_response_ignores_dispatch putUrl freshId now
      ⟨some name, some ⟨fname, some entries⟩⟩ d₁ d₂
  · intro d
    rw [uploadHandler_success_run putUrl freshId now name fname entries d me te hn hz hme hte]
    simp

/-- Witness for C8: for the concrete upload of C7's scenario, the response
status and body are identical whether the dispatch fetch succeeds or
fails. -/
theorem C8_witness :
    (uploadHandler (fun k => "u-" ++ k) "id-8" 4
      ⟨some "Chair", some ⟨"bundle.zip",
        some [⟨"mesh.obj", false, [1]⟩, ⟨"skin.png", false, [2]⟩]⟩⟩ true).status = 200 ∧
    (uploadHandler (fun k => "u-" ++ k) "id-8" 4
      ⟨some "Chair", some ⟨"bundle.zip",
        some [⟨"mesh.obj", false, [1]⟩, ⟨"skin.png", false, [2]⟩]⟩⟩ true).body
      = (uploadHandler (fun k => "u-" ++ k) "id-8" 4
          ⟨some "Chair", some ⟨"bundle.zip",
            some [⟨"mesh.obj", false, [1]⟩, ⟨"skin.png", false, [2]⟩]⟩⟩ false).body := by
  have h := C8_fire_and_forget (fun k => "u-" ++ k) "id-8" 4 "Chair" "bundle.zip"
    [⟨"mesh.obj", false, [1]⟩, ⟨"skin.png", false, [2]⟩]
    ⟨"mesh.obj", false, [1]⟩ ⟨"skin.png", false, [2]⟩
    (by decide) (by decide) (by decide) (by decide)
  exact ⟨h.1, (h.2.1 true false).2⟩

/-- Counterexample to claim C1 as stated: the upload of a non-empty name
(Chair) and a payload that is not a well-formed archive under the filename
model.zip reaches JSZip.loadAsync, whose rejection lands in the generic
catch: the handler answers 500, not a 400-class response. -/
theorem C1_counterexample :
    (uploadHandler (fun k => k) "id-1" 0
      ⟨some "Chair", some ⟨"model.zip", none⟩⟩ true).status = 500 := by
  decide

/-- Claim C1 as amended: when the name is non-empty and the filename passes
the zip gate but the payload is not a well-formed archive, the archive
parse failure propagates to the generic catch and the handler returns 500
(the UpstreamError class of the spec's taxonomy), with no blob writes. -/
theorem C1_amended_parse_failure_returns_500 (putUrl : String → String)
    (freshId : String) (now : Nat) (name fname : String) (d : Bool)
    (hn : (jsTrim name).data.isEmpty = false)
    (hz : lastDotSegmentLower fname = "zip") :
    (uploadHandler putUrl freshId now ⟨some name, some ⟨fname, none⟩⟩ d).status = 500 ∧
    (uploadHandler putUrl freshId now ⟨some name, some ⟨fname, none⟩⟩ d).ops = [] := by
  simp [uploadHandler, hn, hz]

/-- Witness for the amended C1 at a concrete malformed upload. -/
theorem C1_witness :
    (uploadHandler (fun k => k) "id-1b" 2
      ⟨some "Chair", some ⟨"broken.zip", none⟩⟩ false).status = 500 ∧
    (uploadHandler (fun k => k) "id-1b" 2
      ⟨some "Chair", some ⟨"broken.zip", none⟩⟩ false).ops = [] :=
  C1_amended_parse_failure_returns_500 (fun k => k) "id-1b" 2 "Chair" "broken.zip" false
    (by decide) (by decide)

/-- Counterexample to claim C9 as stated: the filename zip (no dot) does not
end in .zip, yet the handler does not reject it — the check compares the
last dot-separated segment, so a well-formed archive uploaded under the
bare filename zip is accepted with 200. -/
theorem C9_counterexample :
    strEndsWith "zip" ".zip" = false ∧
    (uploadHandler (fun k => k) "id-9" 0
      ⟨some "Chair", some ⟨"zip",
        some [⟨"mesh.obj", false, [1]⟩, ⟨"skin.png", false, [2]⟩]⟩⟩ true).status = 200 := by
  constructor <;> decide

/-- Claim C9 as amended: the handler rejects with 400, before reading any
archive bytes, exactly the requests whose uploaded filename's last
dot-separated segment, lowercased, differs from zip; the result is then
independent of the archive contents (so filenames ending in .zip pass
case-insensitively, but so does the dotless filename zip itself). -/
theorem C9_amended_filename_gate (putUrl : String → String) (freshId : String)
    (now : Nat) (mn : Option String) (fname : String)
    (a a' : Option (List ZipEntry)) (d : Bool)
    (hz : lastDotSegmentLower fname ≠ "zip") :
    (uploadHandler putUrl freshId now ⟨mn, some ⟨fname, a⟩⟩ d).status = 400 ∧
    (uploadHandler putUrl freshId now ⟨mn, some ⟨fname, a⟩⟩ d).ops = [] ∧
    uploadHandler putUrl freshId now ⟨mn, some ⟨fname, a⟩⟩ d
      = uploadHandler putUrl freshId now ⟨mn, some ⟨fname, a'⟩⟩ d := by
  cases mn with
  | none => simp [uploadHandler]
  | some n =>
      by_cases hn : (jsTrim n).data.isEmpty
      · simp [uploadHandler, hn]
      · simp [uploadHandler, hn, hz]

/-- Witness for the amended C9: the filename model.rar is rejected with 400,
no operations, and the same response with or without a parseable archive. -/
theorem C9_witness :
    (uploadHandler (fun k => k) "id-9b" 1
      ⟨some "Chair", some ⟨"model.rar",
        some [⟨"mesh.obj", false, [1]⟩, ⟨"skin.png", false, [2]⟩]⟩⟩ true).status = 400 ∧
    (uploadHandler (fun k => k) "id-9b" 1
      ⟨some "Chair", some ⟨"model.rar",
        some [⟨"mesh.obj", false, [1]⟩, ⟨"skin.png", false, [2]⟩]⟩⟩ true).ops = [] :=
  ⟨(C9_amended_filename_gate (fun k => k) "id-9b" 1 (some "Chair") "model.rar"
      (some [⟨"mesh.obj", false, [1]⟩, ⟨"skin.png", false, [2]⟩]) none true (by decide)).1,
   (C9_amended_filename_gate (fun k => k) "id-9b" 1 (some "Chair") "model.rar"
      (some [⟨"mesh.obj", false, [1]⟩, ⟨"skin.png", false, [2]⟩]) none true (by decide)).2.1⟩

theorem mem_deleteBatch (mid : String) (m : MetaJson) (k : String) :
    k ∈ deleteBatch mid m ↔
      (k = metadataKeyOf mid ∨
       (m.modelUrl = some k ∧ k.data ≠ []) ∨
       (m.textureUrl = some k ∧ k.data ≠ []) ∨
       (m.thumbnailUrl = some k ∧ k.data ≠ [])) := by
  simp only [deleteBatch, List.mem_filterMap, List.mem_filter, id_eq, List.mem_cons,
    List.mem_singleton, List.not_mem_nil, or_false]
  constructor
  · rintro ⟨a, ⟨hmem, htru⟩, rfl⟩
    rcases hmem with h | h | h | h
    · exact Or.inr (Or.inl ⟨h.symm, by simpa [jsTruthy] using htru⟩)
    · exact Or.inr (Or.inr (Or.inl ⟨h.symm, by simpa [jsTruthy] using htru⟩))
    · exact Or.inr (Or.inr (Or.inr ⟨h.symm, by simpa [jsTruthy] using htru⟩))
    · exact Or.inl (by simpa using h)
  · rintro (rfl | ⟨h, hne⟩ | ⟨h, hne⟩ | ⟨h, hne⟩)
    · exact ⟨some (metadataKeyOf mid),
        ⟨by simp, by simpa [jsTruthy] using metadataKey_data_ne_nil mid⟩, rfl⟩
    · exact ⟨some k, ⟨by simp [h.symm], by simpa [jsTruthy] using hne⟩, rfl⟩
    · exact ⟨some k, ⟨by simp [h.symm], by simpa [jsTruthy] using hne⟩, rfl⟩
    · exact ⟨some k, ⟨by simp [h.symm], by simpa [jsTruthy] using hne⟩, rfl⟩

/-- Counterexample to claim C2 as stated: for a record without thumbnailUrl,
the batch actually submitted to del holds only modelUrl, textureUrl and the
metadata key — the fixed naming-convention key models/abc/thumbnail.png is
not substituted for the missing field. -/
theorem C2_counterexample :
    (deleteHandler (some "abc")
      (some ⟨some "https://blob.test/m.obj", some "https://blob.test/t.png",
             none, some "obj"⟩)).delBatches
      = [["https://blob.test/m.obj", "https://blob.test/t.png",
          "models/abc/metadata.json"]] ∧
    (deleteBatch "abc"
      ⟨some "https://blob.test/m.obj", some "https://blob.test/t.png",
       none, some "obj"⟩).contains "models/abc/thumbnail.png" = false := by
  constructor <;> decide

/-- Claim C2 as amended: for every delete whose metadata record loads, one
batch delete is submitted whose keys are exactly the truthy values of the
record's modelUrl, textureUrl and thumbnailUrl fields plus the fixed
metadata key models/ID/metadata.json — a missing or falsy field is dropped,
never replaced by the naming-convention key. -/
theorem C2_amended_delete_batch (mid : String) (m : MetaJson) :
    (deleteHandler (some mid) (some m)).status = 200 ∧
    (deleteHandler (some mid) (some m)).delBatches = [deleteBatch mid m] ∧
    metadataKeyOf mid ∈ deleteBatch mid m ∧
    (∀ k : String, k ∈ deleteBatch mid m ↔
      (k = metadataKeyOf mid ∨
       (m.modelUrl = some k ∧ k.data ≠ []) ∨
       (m.textureUrl = some k ∧ k.data ≠ []) ∨
       (m.thumbnailUrl = some k ∧ k.data ≠ []))) := by
  refine ⟨rfl, rfl, ?_, mem_deleteBatch mid m⟩
  exact (mem_deleteBatch mid m (metadataKeyOf mid)).2 (Or.inl rfl)

theorem thumbnail_write_shape (env : RenderEnv) (mid : Option String) (r : MetadataRecord)
    (hmem : r ∈ (thumbnailHandler env mid).metaWrites) :
    ∃ m, env.metaFetch = some m ∧
      (thumbnailHandler env mid).thumbStored = true ∧
      ((env.putMetaOk = true ∧
          r = { m with status := "Ready", thumbnailUrl := some env.thumbUrl }) ∨
       (env.putMetaOk = false ∧ env.putErrMetaOk = true ∧
          r = { m with status := "Error", thumbnailUrl := some env.thumbUrl })) := by
  rcases env with ⟨ro, pt, mf, pm, pe, tu⟩
  cases mid with
  | none => simp [thumbnailHandler] at hmem
  | some i =>
      cases ro
      · simp [thumbnailHandler] at hmem
      · cases pt
        · simp [thumbnailHandler] at hmem
        · cases mf with
          | none => simp [thumbnailHandler] at hmem
          | some m =>
              cases pm
              · cases pe
                · simp [thumbnailHandler] at hmem
                · simp [thumbnailHandler] at hmem
                  exact ⟨m, rfl, rfl, Or.inr ⟨rfl, rfl, by simp [hmem]⟩⟩
              · simp [thumbnailHandler] at hmem
                exact ⟨m, rfl, rfl, Or.inl ⟨rfl, by simp [hmem]⟩⟩

/-- Counterexample to claim C3 as stated: when the Ready-persist fails after
the thumbnail blob was stored, the degrade path persists the already
mutated in-memory record — a record with status Error and thumbnailUrl
populated is stored. -/
theorem C3_counterexample :
    ((thumbnailHandler
        ⟨true, true, some ⟨"abc", "Chair", "mu", "tu", "obj", "Uploaded", none, 5⟩,
         false, true, "tURL"⟩ (some "abc")).metaWrites.map MetadataRecord.status
      = ["Error"]) ∧
    ((thumbnailHandler
        ⟨true, true, some ⟨"abc", "Chair", "mu", "tu", "obj", "Uploaded", none, 5⟩,
         false, true, "tURL"⟩ (some "abc")).metaWrites.map MetadataRecord.thumbnailUrl
      = [some "tURL"]) := by
  constructor <;> decide

/-- Claim C3 as amended: thumbnailUrl is set only by the render trigger and
only after the thumbnail blob was stored; records persisted by the upload
handler always have status Uploaded and no thumbnailUrl, and the render
trigger never persists a record with status Uploaded — but on the degrade
path (Ready-persist failure after a stored thumbnail) the Error record
keeps the populated thumbnailUrl. -/
theorem C3_amended_thumbnail_url_discipline (putUrl : String → String)
    (freshId : String) (now : Nat) (req : UploadRequest) (d : Bool)
    (env : RenderEnv) (mid : Option String) :
    (∀ key meta, StoreOp.putMeta key meta ∈ (uploadHandler putUrl freshId now req d).ops →
      meta.status = "Uploaded" ∧ meta.thumbnailUrl = none) ∧
    (∀ r, r ∈ (thumbnailHandler env mid).metaWrites →
      r.thumbnailUrl = some env.thumbUrl ∧
      (thumbnailHandler env mid).thumbStored = true ∧
      r.status ≠ "Uploaded") := by
  constructor
  · intro key meta hmem
    rcases uploadHandler_ops_cases putUrl freshId now req d with
      h | ⟨mk, mc, tk, tc, m2, hops, hst, hth, hid, hmu, htu⟩
    · rw [h] at hmem
      simp at hmem
    · rw [hops] at hmem
      simp at hmem
      obtain ⟨hkey, hmeta⟩ := hmem
      subst hmeta
      exact ⟨hst, hth⟩
  · intro r hmem
    obtain ⟨m, hmf, hts, hcase⟩ := thumbnail_write_shape env mid r hmem
    rcases hcase with ⟨hpm, rfl⟩ | ⟨hpm, hpe, rfl⟩
    · exact ⟨rfl, hts, by simp⟩
    · exact ⟨rfl, hts, by simp⟩

/-- Counterexample to claim C4 as stated: invoking the render trigger on an
asset whose record is already in the terminal status Error re-persists the
record with status Ready — a reverse transition that changes the stored
record, because the trigger performs no status check. -/
theorem C4_counterexample :
    ((thumbnailHandler
        ⟨true, true, some ⟨"abc", "Chair", "mu", "tu", "obj", "Error", none, 5⟩,
         true, true, "tURL"⟩ (some "abc")).metaWrites.map MetadataRecord.status
      = ["Ready"]) := by
  decide

/-- Claim C4 as amended: the upload handler persists records only with
status Uploaded, and the render trigger persists only Ready (when the
Ready-persist succeeds) or Error (on the degrade path), so within the
system's own single dispatch per upload the stored status moves only
Uploaded to Ready or Uploaded to Error; the trigger has no status guard,
so an external re-invocation on a Ready or Error record overwrites it
(repeat or reverse transitions are not prevented). -/
theorem C4_amended_status_transitions (putUrl : String → String)
    (freshId : String) (now : Nat) (req : UploadRequest) (d : Bool)
    (env : RenderEnv) (mid : Option String) :
    (∀ key meta, StoreOp.putMeta key meta ∈ (uploadHandler putUrl freshId now req d).ops →
      meta.status = "Uploaded") ∧
    (∀ r, r ∈ (thumbnailHandler env mid).metaWrites →
      (r.status = "Ready" ∧ env.putMetaOk = true) ∨
      (r.status = "Error" ∧ env.putMetaOk = false ∧ env.putErrMetaOk = true)) := by
  constructor
  · intro key meta hmem
    rcases uploadHandler_ops_cases putUrl freshId now req d with
      h | ⟨mk, mc, tk, tc, m2, hops, hst, hth, hid, hmu, htu⟩
    · rw [h] at hmem
      simp at hmem
    · rw [hops] at hmem
      simp at hmem
      obtain ⟨hkey, hmeta⟩ := hmem
      subst hmeta
      exact hst
  · intro r hmem
    obtain ⟨m, hmf, hts, hcase⟩ := thumbnail_write_shape env mid r hmem
    rcases hcase with ⟨hpm, rfl⟩ | ⟨hpm, hpe, rfl⟩
    · exact Or.inl ⟨rfl, hpm⟩
    · exact Or.inr ⟨rfl, hpm, hpe⟩
